import Mathlib

/-
Verification of the batch sketch-subtraction pipeline in src/main.rs.

The pipeline loads one query signature, extracts the hash set of its
matching MinHash sketch, and for every target path in a signature list
removes those hashes from the target's matching sketch, writing the
mutated signature to outputRoot/ksize/filename.

Shallow embedding conventions:
  - File-system paths are lists of components (Rust PathBuf push is list
    append, Path::file_name is the last component).
  - The file system is a function from path to the parsed list of
    signature records (none models an unreadable or unparseable file,
    mirroring Signature::from_path returning Err).
  - Rust panics and unwraps on None are modelled as Except.error; a
    worker panic aborts the whole run (rayon propagates it), so
    processTargets stops at the first error, carrying the state reached
    so far (written files are not rolled back).
  - The external sourmash types (Signature, Sketch, KmerMinHash) are
    modelled at their interface boundary: a KmerMinHash carries its
    parameters and its ordered duplicate-free list of hash values;
    remove_many removes each mask hash via binary search + remove,
    i.e. it erases each mask element from the list; select_sketch
    returns the first sketch of the signature whose parameters are
    compatible with the template (check_compatible compares ksize,
    hash function, max_hash and seed).
  - Machine integers are Nat; all hash values fit in 64 bits and no
    arithmetic overflows in the source, so no modular reduction arises.
-/

namespace RemoveProtein

/-- Largest value of an unsigned 64-bit integer. -/
def u64Max : Nat := 2 ^ 64 - 1

/-- Hash function identities of the external sketching library. -/
inductive HashFunctions where
  | murmur64_DNA
  | murmur64_protein
  | murmur64_dayhoff
  | murmur64_hp
deriving DecidableEq, BEq

/-- Scaled-to-max-hash conversion (sourmash max_hash_for_scaled).  The
source truncates a 64-bit float division; no claim depends on the exact
value, only on the function being a fixed deterministic map, so the
embedding uses integer division. -/
def maxHashForScaled (scaled : Nat) : Nat :=
  match scaled with
  | 0 => 0
  | 1 => u64Max
  | _ => u64Max / scaled

/-- Hash-set sketch (sourmash KmerMinHash) at its interface boundary:
selection parameters plus the ordered, duplicate-free list of retained
hash values. -/
structure KmerMinHash where
  num : Nat
  ksize : Nat
  hashFunction : HashFunctions
  maxHash : Nat
  seed : Nat
  mins : List Nat
deriving DecidableEq

/-- BTree-backed hash-set sketch (sourmash KmerMinHashBTree); the query
is converted into this form before its mins are extracted.  The
conversion preserves parameters and the ordered hash list. -/
structure KmerMinHashBTree where
  num : Nat
  ksize : Nat
  hashFunction : HashFunctions
  maxHash : Nat
  seed : Nat
  mins : List Nat
deriving DecidableEq

/-- Conversion KmerMinHash -> KmerMinHashBTree (the Rust Into impl). -/
def KmerMinHashBTree.ofMinHash (mh : KmerMinHash) : KmerMinHashBTree :=
  ⟨mh.num, mh.ksize, mh.hashFunction, mh.maxHash, mh.seed, mh.mins⟩

/-- Polymorphic sketch variant (sourmash Sketch enum). -/
inductive Sketch where
  | MinHash (mh : KmerMinHash)
  | LargeMinHash (mh : KmerMinHashBTree)
deriving DecidableEq

/-- Signature record (sourmash Signature): metadata plus the collection
of sketch variants (field signatures in the source). -/
structure Signature where
  name : String
  filename : String
  signatures : List Sketch
deriving DecidableEq

/-- Parameter compatibility check between a sketch and a template
(sourmash KmerMinHash::check_compatible): ksize, hash function,
max_hash and seed must agree; element contents are irrelevant. -/
def checkCompatible (mh tmpl : KmerMinHash) : Bool :=
  mh.ksize == tmpl.ksize && mh.hashFunction == tmpl.hashFunction &&
    mh.maxHash == tmpl.maxHash && mh.seed == tmpl.seed

/-- Sketch selection (sourmash Signature::select_sketch): with a MinHash
template, return the first MinHash sketch in the signature whose
parameters are compatible with the template. -/
def Signature.selectSketch (sig : Signature) (template : Sketch) : Option Sketch :=
  match template with
  | Sketch.MinHash tmpl =>
      sig.signatures.find? fun sk =>
        match sk with
        | Sketch.MinHash mh => checkCompatible mh tmpl
        | _ => false
  | _ => none

/-- Removal of one hash value (sourmash KmerMinHash::remove_hash):
binary search in the ordered list and removal when present, i.e. erasure
of the value from the list. -/
def removeHash (mh : KmerMinHash) (h : Nat) : KmerMinHash :=
  { mh with mins := mh.mins.erase h }

/-- Removal of many hash values (sourmash KmerMinHash::remove_many,
line 110 of main.rs): remove_hash for each element of the mask. -/
def removeMany (mh : KmerMinHash) (hashes : List Nat) : KmerMinHash :=
  hashes.foldl removeHash mh

/-- Signature::reset_sketches: discard every sketch variant. -/
def Signature.resetSketches (sig : Signature) : Signature :=
  { sig with signatures := [] }

/-- Signature::push: append one sketch variant. -/
def Signature.push (sig : Signature) (sk : Sketch) : Signature :=
  { sig with signatures := sig.signatures ++ [sk] }

/-- File-system paths as component lists: PathBuf::push appends a
component, Path::file_name is the last component. -/
abbrev SigPath : Type := List String

/-- Last path component (Path::file_name). -/
def fileNameOf (p : SigPath) : Option String := List.getLast? p

/-- Template sketch built at lines 47-54 of main.rs: num 0, requested
ksize, protein murmur64 hashing, max_hash from the scaled value, and the
builder's default seed 42 with no hash values. -/
def mkTemplate (ksize scaled : Nat) : Sketch :=
  Sketch.MinHash
    { num := 0, ksize := ksize, hashFunction := HashFunctions.murmur64_protein,
      maxHash := maxHashForScaled scaled, seed := 42, mins := [] }

/-- Query loading loop at lines 57-64 of main.rs: scan every signature
record of the query file; whenever a record has a sketch matching the
template and that sketch is a MinHash, overwrite the query with its
BTree conversion (so a later match replaces an earlier one). -/
def loadQuery (records : List Signature) (template : Sketch) :
    Option KmerMinHashBTree :=
  records.foldl
    (fun acc sig =>
      match sig.selectSketch template with
      | some (Sketch.MinHash mh) => some (KmerMinHashBTree.ofMinHash mh)
      | _ => acc)
    none

/-- Mutable state of one batch run: the files written so far (newest
first, a lookup sees the latest write, modelling File::create
truncating an existing file), the shared atomic progress counter, the
counts reported by the progress log lines, and the directories created
by create_dir_all. -/
structure RunState where
  written : List (SigPath × List Signature)
  counter : Nat
  logs : List Nat
  dirs : List SigPath
deriving DecidableEq

/-- Write of one output file (File::create + serde_json::to_writer):
later writes shadow earlier ones at the same path. -/
def writeFile (w : List (SigPath × List Signature)) (p : SigPath)
    (c : List Signature) : List (SigPath × List Signature) :=
  (p, c) :: w

/-- Per-target work after the records of the target file are parsed,
lines 99-118 of main.rs: take the first record (swap_remove(0), a panic
on an empty record list), select the template-matching MinHash sketch
(unwrap panic when absent), remove the mask hashes, compute the output
path from outdir and the target's file name, and serialize the
signature, its sketch list reset to just the mutated sketch, wrapped in
a one-element array. -/
def processLoaded (template : Sketch) (hashesToRemove : List Nat)
    (outdir : SigPath) (filename : SigPath) (records : List Signature) :
    Except String (SigPath × List Signature) :=
  match records.head? with
  | none => Except.error "swap_remove index out of bounds"
  | some searchSig =>
    match searchSig.selectSketch template with
    | some (Sketch.MinHash mh) =>
        match fileNameOf filename with
        | none => Except.error "file_name returned None"
        | some f =>
            Except.ok (outdir ++ [f],
              [(searchSig.resetSketches).push
                (Sketch.MinHash (removeMany mh hashesToRemove))])
    | _ => Except.error "no sketch matching the template"

/-- Per-target work including the parse (Signature::from_path at line
100, whose failure panics with the target path in the message). -/
def processTarget (fs : SigPath → Option (List Signature)) (template : Sketch)
    (hashesToRemove : List Nat) (outdir : SigPath) (filename : SigPath) :
    Except String (SigPath × List Signature) :=
  match fs filename with
  | none => Except.error "Error processing target"
  | some records => processLoaded template hashesToRemove outdir filename records

/-- Batch loop at lines 93-119 of main.rs, sequentialized: for each
target, first bump the shared counter (fetch_add returns the previous
value i) and log the count when i is a multiple of 1000, then process
the target; the first failing target aborts the run, carrying the state
reached so far (nothing already written is rolled back). -/
def processTargets (fs : SigPath → Option (List Signature)) (template : Sketch)
    (hashesToRemove : List Nat) (outdir : SigPath) :
    List SigPath → RunState → Except (RunState × String) RunState
  | [], st => Except.ok st
  | t :: ts, st =>
      let i := st.counter
      let st' : RunState :=
        { st with
          counter := i + 1,
          logs := if i % 1000 == 0 then st.logs ++ [i] else st.logs }
      match processTarget fs template hashesToRemove outdir t with
      | Except.error e => Except.error (st', e)
      | Except.ok (p, c) =>
          processTargets fs template hashesToRemove outdir ts
            { st' with written := writeFile st'.written p c }

/-- Fatal outcomes of a run: the query file failed to parse (unwrap at
line 56), no sketch of any query record matched the template (unwrap at
line 65), or a worker aborted the batch (with the state reached). -/
inductive RunError where
  | queryParse
  | queryNoMatch
  | target (st : RunState) (msg : String)
deriving DecidableEq

/-- Whole subtract pipeline (fn subtract, lines 38-122 of main.rs):
build the template, load the query and extract its hashes, resolve the
output root (default "outputs") extended by the decimal ksize
directory, create that directory once up front, then process every
target. -/
def subtract (fs : SigPath → Option (List Signature)) (query : SigPath)
    (searchSigs : List SigPath) (ksize scaled : Nat)
    (output : Option SigPath) : Except RunError RunState :=
  let template := mkTemplate ksize scaled
  match fs query with
  | none => Except.error RunError.queryParse
  | some records =>
    match loadQuery records template with
    | none => Except.error RunError.queryNoMatch
    | some q =>
      let hashesToRemove := q.mins
      let outdir : SigPath := (output.getD ["outputs"]) ++ [Nat.repr ksize]
      let st0 : RunState := ⟨[], 0, [], [outdir]⟩
      match processTargets fs template hashesToRemove outdir searchSigs st0 with
      | Except.ok st => Except.ok st
      | Except.error (st, e) => Except.error (RunError.target st e)

/-! Concrete data for witnesses: the spec's scenario of a query with
hashes 1, 2, 3 and a target with hashes 2, 3, 4, 5 at k = 4, scaled = 1. -/

/-- Query sketch of the scenario, hash set 1, 2, 3. -/
def qmhW : KmerMinHash :=
  { num := 0, ksize := 4, hashFunction := HashFunctions.murmur64_protein,
    maxHash := maxHashForScaled 1, seed := 42, mins := [1, 2, 3] }

/-- Query signature of the scenario. -/
def qSigW : Signature := ⟨"query", "query.sig", [Sketch.MinHash qmhW]⟩

/-- Target sketch of the scenario, hash set 2, 3, 4, 5. -/
def tmhW : KmerMinHash :=
  { num := 0, ksize := 4, hashFunction := HashFunctions.murmur64_protein,
    maxHash := maxHashForScaled 1, seed := 42, mins := [2, 3, 4, 5] }

/-- Target signature of the scenario. -/
def tSigW : Signature := ⟨"target", "target.sig", [Sketch.MinHash tmhW]⟩

/-- Scenario file system: the query file and one target file. -/
def fsW (p : SigPath) : Option (List Signature) :=
  if p = ["query.sig"] then some [qSigW]
  else if p = ["dir", "target.sig"] then some [tSigW]
  else none

/-- Mutated target signature the scenario writes: hash set 4, 5 only. -/
def outSigW : Signature :=
  ⟨"target", "target.sig",
    [Sketch.MinHash
      { num := 0, ksize := 4, hashFunction := HashFunctions.murmur64_protein,
        maxHash := maxHashForScaled 1, seed := 42, mins := [4, 5] }]⟩

/-- Final state of the scenario run. -/
def stW : RunState :=
  ⟨[(["outputs", "4", "target.sig"], [outSigW])], 1, [0], [["outputs", "4"]]⟩

/-- Sanity check: the full scenario run computes to the expected final
state. -/
theorem scenario_run_eq :
    subtract fsW ["query.sig"] [["dir", "target.sig"]] 4 1 none =
      Except.ok stW := rfl

/-- Decidable form of the hash-set invariant of the external sketch
type: the retained hash values of a sketch are duplicate-free. -/
def sketchNodupB : Sketch → Bool
  | Sketch.MinHash mh => decide mh.mins.Nodup
  | Sketch.LargeMinHash mh => decide mh.mins.Nodup

/-- Match function of one query record: the BTree conversion of its
template-matching MinHash sketch, if any. -/
def queryMatchOf (template : Sketch) (sig : Signature) :
    Option KmerMinHashBTree :=
  match sig.selectSketch template with
  | some (Sketch.MinHash mh) => some (KmerMinHashBTree.ofMinHash mh)
  | _ => none

/-! Helper lemmas. -/

theorem removeHash_mins (mh : KmerMinHash) (a : Nat) :
    (removeHash mh a).mins = mh.mins.erase a := rfl

theorem removeMany_cons (mh : KmerMinHash) (a : Nat) (l : List Nat) :
    removeMany mh (a :: l) = removeMany (removeHash mh a) l := rfl

theorem mem_removeMany (mask : List Nat) (mh : KmerMinHash)
    (nd : mh.mins.Nodup) (h : Nat) :
    h ∈ (removeMany mh mask).mins ↔ h ∈ mh.mins ∧ h ∉ mask := by
  induction mask generalizing mh with
  | nil => simp [removeMany]
  | cons a l ih =>
      have nd' : (removeHash mh a).mins.Nodup := nd.erase a
      rw [removeMany_cons, ih _ nd']
      rw [removeHash_mins, nd.mem_erase_iff]
      simp only [List.mem_cons]
      tauto

theorem removeMany_of_disjoint (mask : List Nat) (mh : KmerMinHash)
    (hd : ∀ a ∈ mask, a ∉ mh.mins) : removeMany mh mask = mh := by
  induction mask generalizing mh with
  | nil => rfl
  | cons a l ih =>
      rw [removeMany_cons]
      have ha : removeHash mh a = mh := by
        show { mh with mins := mh.mins.erase a } = mh
        rw [List.erase_of_not_mem (hd a (List.mem_cons_self a l))]
      rw [ha]
      exact ih mh fun b hb => hd b (List.mem_cons_of_mem a hb)

theorem removeMany_idem (mask : List Nat) (mh : KmerMinHash)
    (nd : mh.mins.Nodup) :
    removeMany (removeMany mh mask) mask = removeMany mh mask := by
  refine removeMany_of_disjoint mask _ fun a ha hmem => ?_
  exact ((mem_removeMany mask mh nd a).mp hmem).2 ha

theorem removeMany_fields (mask : List Nat) (mh : KmerMinHash) :
    removeMany mh mask =
      ⟨mh.num, mh.ksize, mh.hashFunction, mh.maxHash, mh.seed,
        (removeMany mh mask).mins⟩ := by
  induction mask generalizing mh with
  | nil => rfl
  | cons a l ih =>
      rw [removeMany_cons, ih (removeHash mh a)]
      rfl

theorem checkCompatible_removeMany (mask : List Nat) (mh tmpl : KmerMinHash) :
    checkCompatible (removeMany mh mask) tmpl = checkCompatible mh tmpl := by
  rw [removeMany_fields]
  rfl

theorem findSome?_append_or (l1 l2 : List Signature)
    (f : Signature → Option KmerMinHashBTree) :
    (l1 ++ l2).findSome? f = ((l1.findSome? f).or (l2.findSome? f)) := by
  induction l1 with
  | nil => simp [List.findSome?]
  | cons a l ih => cases h : f a <;> simp [List.findSome?, h, ih]

theorem or_assoc_option (a b c : Option KmerMinHashBTree) :
    (a.or b).or c = a.or (b.or c) := by
  cases a <;> rfl

theorem loadQuery_foldl (records : List Signature) (template : Sketch)
    (acc : Option KmerMinHashBTree) :
    records.foldl
        (fun acc sig =>
          match sig.selectSketch template with
          | some (Sketch.MinHash mh) => some (KmerMinHashBTree.ofMinHash mh)
          | _ => acc)
        acc =
      ((records.reverse).findSome? (queryMatchOf template)).or acc := by
  induction records generalizing acc with
  | nil => cases acc <;> rfl
  | cons sig rest ih =>
      have hstep :
          (match sig.selectSketch template with
            | some (Sketch.MinHash mh) => some (KmerMinHashBTree.ofMinHash mh)
            | _ => acc) =
            (queryMatchOf template sig).or acc := by
        unfold queryMatchOf
        cases h : sig.selectSketch template with
        | none => rfl
        | some sk => cases sk <;> rfl
      have hsingle :
          List.findSome? (queryMatchOf template) [sig] =
            queryMatchOf template sig := by
        unfold List.findSome?
        cases h : queryMatchOf template sig <;> simp [h]
      calc (sig :: rest).foldl _ acc
          = rest.foldl _ (match sig.selectSketch template with
              | some (Sketch.MinHash mh) => some (KmerMinHashBTree.ofMinHash mh)
              | _ => acc) := rfl
        _ = ((rest.reverse).findSome? (queryMatchOf template)).or
              ((queryMatchOf template sig).or acc) := by rw [ih, hstep]
        _ = (((sig :: rest).reverse).findSome? (queryMatchOf template)).or acc := by
              rw [List.reverse_cons, findSome?_append_or, hsingle,
                or_assoc_option]

/-- State update performed at the head of each worker iteration: bump
the shared counter and log when the previous value is a multiple of
1000. -/
def bumped (st : RunState) : RunState :=
  { st with
    counter := st.counter + 1,
    logs := if st.counter % 1000 == 0 then st.logs ++ [st.counter]
            else st.logs }

theorem processTargets_nil (fs : SigPath → Option (List Signature))
    (tpl : Sketch) (mask : List Nat) (outdir : SigPath) (st : RunState) :
    processTargets fs tpl mask outdir [] st = Except.ok st := rfl

theorem processTargets_cons (fs : SigPath → Option (List Signature))
    (tpl : Sketch) (mask : List Nat) (outdir t : SigPath)
    (ts : List SigPath) (st : RunState) :
    processTargets fs tpl mask outdir (t :: ts) st =
      match processTarget fs tpl mask outdir t with
      | Except.error e => Except.error (bumped st, e)
      | Except.ok (p, c) =>
          processTargets fs tpl mask outdir ts
            { bumped st with written := writeFile st.written p c } := rfl

theorem processTargets_cons_err (fs : SigPath → Option (List Signature))
    (tpl : Sketch) (mask : List Nat) (outdir t : SigPath)
    (ts : List SigPath) (st : RunState) (e : String)
    (hp : processTarget fs tpl mask outdir t = Except.error e) :
    processTargets fs tpl mask outdir (t :: ts) st =
      Except.error (bumped st, e) := by
  rw [processTargets_cons, hp]

theorem processTargets_cons_ok (fs : SigPath → Option (List Signature))
    (tpl : Sketch) (mask : List Nat) (outdir t : SigPath)
    (ts : List SigPath) (st : RunState) (p : SigPath) (c : List Signature)
    (hp : processTarget fs tpl mask outdir t = Except.ok (p, c)) :
    processTargets fs tpl mask outdir (t :: ts) st =
      processTargets fs tpl mask outdir ts
        { bumped st with written := writeFile st.written p c } := by
  rw [processTargets_cons, hp]

theorem processTarget_none (fs : SigPath → Option (List Signature))
    (tpl : Sketch) (mask : List Nat) (outdir t : SigPath)
    (hfs : fs t = none) :
    processTarget fs tpl mask outdir t =
      Except.error "Error processing target" := by
  unfold processTarget
  rw [hfs]

theorem processTarget_some (fs : SigPath → Option (List Signature))
    (tpl : Sketch) (mask : List Nat) (outdir t : SigPath)
    (records : List Signature) (hfs : fs t = some records) :
    processTarget fs tpl mask outdir t =
      processLoaded tpl mask outdir t records := by
  unfold processTarget
  rw [hfs]

theorem processTarget_ok_spec (fs : SigPath → Option (List Signature))
    (tpl : Sketch) (mask : List Nat) (outdir t p : SigPath)
    (c : List Signature)
    (h : processTarget fs tpl mask outdir t = Except.ok (p, c)) :
    ∃ records sig0 mh0 f,
      fs t = some records ∧ records.head? = some sig0 ∧
      sig0.selectSketch tpl = some (Sketch.MinHash mh0) ∧
      fileNameOf t = some f ∧ p = outdir ++ [f] ∧
      c = [(sig0.resetSketches).push
            (Sketch.MinHash (removeMany mh0 mask))] := by
  cases hfs : fs t with
  | none => rw [processTarget_none fs tpl mask outdir t hfs] at h; simp at h
  | some records =>
    rw [processTarget_some fs tpl mask outdir t records hfs] at h
    cases records with
    | nil => simp [processLoaded] at h
    | cons sig0 rest =>
      unfold processLoaded at h
      simp only [List.head?] at h
      cases hsel : sig0.selectSketch tpl with
      | none => rw [hsel] at h; simp at h
      | some sk =>
        rw [hsel] at h
        cases sk with
        | LargeMinHash mh => simp at h
        | MinHash mh0 =>
          cases hfn : fileNameOf t with
          | none => rw [hfn] at h; simp at h
          | some f =>
            rw [hfn] at h
            simp only [Except.ok.injEq, Prod.mk.injEq] at h
            exact ⟨sig0 :: rest, sig0, mh0, f, rfl, rfl, hsel, rfl,
              h.1.symm, h.2.symm⟩

theorem processTargets_append_ok (fs : SigPath → Option (List Signature))
    (tpl : Sketch) (mask : List Nat) (outdir : SigPath)
    (ts1 ts2 : List SigPath) (st st₁ : RunState)
    (h : processTargets fs tpl mask outdir ts1 st = Except.ok st₁) :
    processTargets fs tpl mask outdir (ts1 ++ ts2) st =
      processTargets fs tpl mask outdir ts2 st₁ := by
  induction ts1 generalizing st with
  | nil =>
      rw [processTargets_nil] at h
      cases h
      rfl
  | cons t ts ih =>
      cases hp : processTarget fs tpl mask outdir t with
      | error e =>
          rw [processTargets_cons_err fs tpl mask outdir t ts st e hp] at h
          simp at h
      | ok pc =>
          obtain ⟨p, c⟩ := pc
          rw [processTargets_cons_ok fs tpl mask outdir t ts st p c hp] at h
          rw [show (t :: ts) ++ ts2 = t :: (ts ++ ts2) from rfl,
            processTargets_cons_ok fs tpl mask outdir t (ts ++ ts2) st p c hp]
          exact ih _ h

theorem processTargets_ok_dirs (fs : SigPath → Option (List Signature))
    (tpl : Sketch) (mask : List Nat) (outdir : SigPath)
    (ts : List SigPath) (st st' : RunState)
    (h : processTargets fs tpl mask outdir ts st = Except.ok st') :
    st'.dirs = st.dirs := by
  induction ts generalizing st with
  | nil =>
      rw [processTargets_nil] at h
      cases h
      rfl
  | cons t ts ih =>
      cases hp : processTarget fs tpl mask outdir t with
      | error e =>
          rw [processTargets_cons_err fs tpl mask outdir t ts st e hp] at h
          simp at h
      | ok pc =>
          obtain ⟨p, c⟩ := pc
          rw [processTargets_cons_ok fs tpl mask outdir t ts st p c hp] at h
          have hd := ih _ h
          exact hd

theorem lookup_writeFile_isSome (w : List (SigPath × List Signature))
    (k p : SigPath) (c : List Signature)
    (h : (List.lookup k w).isSome = true) :
    (List.lookup k (writeFile w p c)).isSome = true := by
  unfold writeFile
  rw [List.lookup]
  cases hk : k == p <;> simp [h]

theorem processTargets_lookup_mono (fs : SigPath → Option (List Signature))
    (tpl : Sketch) (mask : List Nat) (outdir : SigPath)
    (ts : List SigPath) (st st' : RunState) (k : SigPath)
    (h : processTargets fs tpl mask outdir ts st = Except.ok st')
    (hk : (List.lookup k st.written).isSome = true) :
    (List.lookup k st'.written).isSome = true := by
  induction ts generalizing st with
  | nil =>
      rw [processTargets_nil] at h
      cases h
      exact hk
  | cons t ts ih =>
      cases hp : processTarget fs tpl mask outdir t with
      | error e =>
          rw [processTargets_cons_err fs tpl mask outdir t ts st e hp] at h
          simp at h
      | ok pc =>
          obtain ⟨p, c⟩ := pc
          rw [processTargets_cons_ok fs tpl mask outdir t ts st p c hp] at h
          exact ih _ h (lookup_writeFile_isSome st.written k p c hk)

theorem processTargets_ok_writes (fs : SigPath → Option (List Signature))
    (tpl : Sketch) (mask : List Nat) (outdir : SigPath)
    (ts : List SigPath) (st st' : RunState)
    (h : processTargets fs tpl mask outdir ts st = Except.ok st') :
    ∀ t ∈ ts, ∃ f c, fileNameOf t = some f ∧
      List.lookup (outdir ++ [f]) st'.written = some c := by
  induction ts generalizing st with
  | nil => intro t ht; exact absurd ht (by simp)
  | cons t0 ts ih =>
      cases hp : processTarget fs tpl mask outdir t0 with
      | error e =>
          rw [processTargets_cons_err fs tpl mask outdir t0 ts st e hp] at h
          simp at h
      | ok pc =>
          obtain ⟨p, c⟩ := pc
          rw [processTargets_cons_ok fs tpl mask outdir t0 ts st p c hp] at h
          intro t ht
          rcases List.mem_cons.mp ht with rfl | hmem
          · obtain ⟨records, sig0, mh0, f, _, _, _, hfn, hpe, _⟩ :=
              processTarget_ok_spec fs tpl mask outdir t p c hp
            have hstart :
                (List.lookup (outdir ++ [f])
                  (writeFile st.written p c)).isSome = true := by
              rw [hpe, writeFile, List.lookup]
              simp
            have := processTargets_lookup_mono fs tpl mask outdir ts _ st'
              (outdir ++ [f]) h hstart
            obtain ⟨c', hc'⟩ := Option.isSome_iff_exists.mp this
            exact ⟨f, c', hfn, hc'⟩
          · exact ih _ h t hmem

/-! Claim theorems. -/

/-- C1: for every target sketch and hash mask, the hash set of the
output sketch equals the original hash set minus the mask, an exact set
difference: no hash absent from the original appears, every original
hash not in the mask is preserved, and no hash outside the mask is
removed. -/
theorem removeMany_exact_set_difference (mh : KmerMinHash)
    (mask : List Nat) (nd : mh.mins.Nodup) (h : Nat) :
    h ∈ (removeMany mh mask).mins ↔ h ∈ mh.mins ∧ h ∉ mask :=
  mem_removeMany mask mh nd h

/-- Witness for C1, on the spec's scenario: mask 1, 2, 3 subtracted
from target hashes 2, 3, 4, 5 yields 4, 5. -/
theorem removeMany_exact_set_difference_witness :
    tmhW.mins.Nodup ∧ (removeMany tmhW [1, 2, 3]).mins = [4, 5] ∧
      (2 ∈ (removeMany tmhW [1, 2, 3]).mins ↔
        2 ∈ tmhW.mins ∧ 2 ∉ ([1, 2, 3] : List Nat)) :=
  ⟨by decide, by decide,
    removeMany_exact_set_difference tmhW [1, 2, 3] (by decide) 2⟩

/-- C6: subtracting an empty hash mask (an empty query sketch) leaves
the target's hash-set sketch unchanged. -/
theorem removeMany_empty_mask_identity (mh : KmerMinHash) :
    removeMany mh [] = mh := rfl

/-- C10: only the first signature record of a target file is used (any
further records are ignored), and a target file with zero records
aborts fatally. -/
theorem target_first_record_only :
    (∀ (template : Sketch) (mask : List Nat) (outdir t : SigPath)
        (r : Signature) (rest : List Signature),
        processLoaded template mask outdir t (r :: rest) =
          processLoaded template mask outdir t [r]) ∧
    (∀ (template : Sketch) (mask : List Nat) (outdir t : SigPath),
        processLoaded template mask outdir t [] =
          Except.error "swap_remove index out of bounds") :=
  ⟨fun _ _ _ _ _ _ => rfl, fun _ _ _ _ => rfl⟩

/-- File system with two distinct target paths sharing a file name. -/
def fsC (p : SigPath) : Option (List Signature) :=
  if p = ["a", "x"] then some [tSigW]
  else if p = ["b", "x"] then some [tSigW] else none

/-- Counterexample to C8: the targets a/x and b/x are distinct paths,
both process successfully, and both write to the same output path
outputs/4/x, because the output path only uses the file name. -/
theorem distinct_targets_same_output_path :
    (["a", "x"] : SigPath) ≠ ["b", "x"] ∧
    processTarget fsC (mkTemplate 4 1) [1, 2, 3] ["outputs", "4"]
        ["a", "x"] =
      Except.ok (["outputs", "4", "x"], [outSigW]) ∧
    processTarget fsC (mkTemplate 4 1) [1, 2, 3] ["outputs", "4"]
        ["b", "x"] =
      Except.ok (["outputs", "4", "x"], [outSigW]) :=
  ⟨by decide, rfl, rfl⟩

/-- C8 amended: two successfully processed targets whose file names
(last path components) differ write to distinct output paths; targets
sharing a file name collide even when the full paths differ. -/
theorem distinct_filenames_distinct_output_paths
    (fs : SigPath → Option (List Signature)) (tpl : Sketch)
    (mask : List Nat) (outdir t1 t2 p1 p2 : SigPath)
    (c1 c2 : List Signature)
    (h1 : processTarget fs tpl mask outdir t1 = Except.ok (p1, c1))
    (h2 : processTarget fs tpl mask outdir t2 = Except.ok (p2, c2))
    (hf : fileNameOf t1 ≠ fileNameOf t2) : p1 ≠ p2 := by
  obtain ⟨_, _, _, f1, _, _, _, hfn1, hp1, _⟩ :=
    processTarget_ok_spec fs tpl mask outdir t1 p1 c1 h1
  obtain ⟨_, _, _, f2, _, _, _, hfn2, hp2, _⟩ :=
    processTarget_ok_spec fs tpl mask outdir t2 p2 c2 h2
  intro he
  apply hf
  rw [hfn1, hfn2]
  rw [hp1, hp2] at he
  have hf12 : f1 = f2 := by
    have := List.append_cancel_left he
    exact List.singleton_inj.mp this
  rw [hf12]

/-- File system with two target paths carrying different file names. -/
def fsC2 (p : SigPath) : Option (List Signature) :=
  if p = ["a", "x"] then some [tSigW]
  else if p = ["b", "y"] then some [tSigW] else none

/-- Witness for the amended C8: targets a/x and b/y have different file
names and their output paths outputs/4/x and outputs/4/y differ. -/
theorem distinct_filenames_distinct_output_paths_witness :
    (["outputs", "4", "x"] : SigPath) ≠ ["outputs", "4", "y"] :=
  distinct_filenames_distinct_output_paths fsC2 (mkTemplate 4 1)
    [1, 2, 3] ["outputs", "4"] ["a", "x"] ["b", "y"]
    ["outputs", "4", "x"] ["outputs", "4", "y"] [outSigW] [outSigW]
    rfl rfl (by decide)

/-- C4: when a target fails (unreadable or unparseable file, or no
sketch matching the template) after a prefix of targets succeeded, the
batch aborts with that error (the process exits non-zero via the
propagated panic), no further target is processed, and the files
already written by the successful prefix are left in place exactly (no
rollback, and nothing else written). -/
theorem batch_abort_no_rollback
    (fs : SigPath → Option (List Signature)) (tpl : Sketch)
    (mask : List Nat) (outdir : SigPath) (ts1 : List SigPath)
    (t : SigPath) (ts2 : List SigPath) (st st₁ : RunState) (e : String)
    (h1 : processTargets fs tpl mask outdir ts1 st = Except.ok st₁)
    (h2 : processTarget fs tpl mask outdir t = Except.error e) :
    ∃ st₂, processTargets fs tpl mask outdir (ts1 ++ t :: ts2) st =
        Except.error (st₂, e) ∧
      st₂.written = st₁.written ∧ st₂.dirs = st₁.dirs := by
  rw [processTargets_append_ok fs tpl mask outdir ts1 (t :: ts2) st st₁ h1,
    processTargets_cons_err fs tpl mask outdir t ts2 st₁ e h2]
  exact ⟨bumped st₁, rfl, rfl, rfl⟩

/-- Witness for C4: after the scenario target succeeds, a missing
second target aborts the run with the scenario's output left in
place. -/
theorem batch_abort_no_rollback_witness :
    ∃ st₂, processTargets fsW (mkTemplate 4 1) [1, 2, 3] ["outputs", "4"]
        [["dir", "target.sig"], ["missing.sig"]]
        ⟨[], 0, [], [["outputs", "4"]]⟩ =
        Except.error (st₂, "Error processing target") ∧
      st₂.written = stW.written ∧ st₂.dirs = stW.dirs :=
  batch_abort_no_rollback fsW (mkTemplate 4 1) [1, 2, 3] ["outputs", "4"]
    [["dir", "target.sig"]] ["missing.sig"] []
    ⟨[], 0, [], [["outputs", "4"]]⟩ stW "Error processing target" rfl rfl

theorem subtract_eq (fs : SigPath → Option (List Signature))
    (q : SigPath) (targets : List SigPath) (ksize scaled : Nat)
    (output : Option SigPath) :
    subtract fs q targets ksize scaled output =
      match fs q with
      | none => Except.error RunError.queryParse
      | some records =>
        match loadQuery records (mkTemplate ksize scaled) with
        | none => Except.error RunError.queryNoMatch
        | some qq =>
          match processTargets fs (mkTemplate ksize scaled) qq.mins
              ((output.getD ["outputs"]) ++ [Nat.repr ksize]) targets
              ⟨[], 0, [], [(output.getD ["outputs"]) ++ [Nat.repr ksize]]⟩ with
          | Except.ok st => Except.ok st
          | Except.error (st, e) => Except.error (RunError.target st e) := rfl

theorem subtract_none (fs : SigPath → Option (List Signature))
    (q : SigPath) (targets : List SigPath) (ksize scaled : Nat)
    (output : Option SigPath) (hq : fs q = none) :
    subtract fs q targets ksize scaled output =
      Except.error RunError.queryParse := by
  rw [subtract_eq, hq]

theorem subtract_some (fs : SigPath → Option (List Signature))
    (q : SigPath) (targets : List SigPath) (ksize scaled : Nat)
    (output : Option SigPath) (records : List Signature)
    (hq : fs q = some records) :
    subtract fs q targets ksize scaled output =
      match loadQuery records (mkTemplate ksize scaled) with
      | none => Except.error RunError.queryNoMatch
      | some qq =>
        match processTargets fs (mkTemplate ksize scaled) qq.mins
            ((output.getD ["outputs"]) ++ [Nat.repr ksize]) targets
            ⟨[], 0, [], [(output.getD ["outputs"]) ++ [Nat.repr ksize]]⟩ with
        | Except.ok st => Except.ok st
        | Except.error (st, e) => Except.error (RunError.target st e) := by
  rw [subtract_eq, hq]

theorem subtract_some_some (fs : SigPath → Option (List Signature))
    (q : SigPath) (targets : List SigPath) (ksize scaled : Nat)
    (output : Option SigPath) (records : List Signature)
    (qq : KmerMinHashBTree) (hq : fs q = some records)
    (hl : loadQuery records (mkTemplate ksize scaled) = some qq) :
    subtract fs q targets ksize scaled output =
      match processTargets fs (mkTemplate ksize scaled) qq.mins
          ((output.getD ["outputs"]) ++ [Nat.repr ksize]) targets
          ⟨[], 0, [], [(output.getD ["outputs"]) ++ [Nat.repr ksize]]⟩ with
      | Except.ok st => Except.ok st
      | Except.error (st, e) => Except.error (RunError.target st e) := by
  rw [subtract_some fs q targets ksize scaled output records hq, hl]

/-- C2: a completed run writes each target's mutated signature under
output_root/ksize/filename: the per-target output path is the outdir
extended by the target's file name, the outdir is the output root
(default outputs when no output option is given) extended by the
decimal ksize, that single directory is created once up front for the
whole run, and a later write to an existing destination shadows the
earlier content (overwrite). -/
theorem output_path_layout :
    (∀ (fs : SigPath → Option (List Signature)) (tpl : Sketch)
        (mask : List Nat) (outdir t p : SigPath) (c : List Signature),
        processTarget fs tpl mask outdir t = Except.ok (p, c) →
        ∃ f, fileNameOf t = some f ∧ p = outdir ++ [f]) ∧
    (∀ (fs : SigPath → Option (List Signature)) (q : SigPath)
        (targets : List SigPath) (ksize scaled : Nat)
        (output : Option SigPath) (st : RunState),
        subtract fs q targets ksize scaled output = Except.ok st →
        st.dirs = [(output.getD ["outputs"]) ++ [Nat.repr ksize]] ∧
        ∀ t ∈ targets, ∃ f c, fileNameOf t = some f ∧
          List.lookup ((output.getD ["outputs"]) ++ [Nat.repr ksize] ++ [f])
            st.written = some c) ∧
    (∀ (w : List (SigPath × List Signature)) (p : SigPath)
        (c : List Signature), List.lookup p (writeFile w p c) = some c) := by
  refine ⟨?_, ?_, ?_⟩
  · intro fs tpl mask outdir t p c h
    obtain ⟨_, _, _, f, _, _, _, hfn, hpe, _⟩ :=
      processTarget_ok_spec fs tpl mask outdir t p c h
    exact ⟨f, hfn, hpe⟩
  · intro fs q targets ksize scaled output st h
    cases hq : fs q with
    | none =>
        rw [subtract_none fs q targets ksize scaled output hq] at h
        simp at h
    | some records =>
      cases hl : loadQuery records (mkTemplate ksize scaled) with
      | none =>
          rw [subtract_some fs q targets ksize scaled output records hq,
            hl] at h
          simp at h
      | some qq =>
        rw [subtract_some_some fs q targets ksize scaled output records qq
          hq hl] at h
        cases hP : processTargets fs (mkTemplate ksize scaled) qq.mins
            ((output.getD ["outputs"]) ++ [Nat.repr ksize]) targets
            ⟨[], 0, [], [(output.getD ["outputs"]) ++ [Nat.repr ksize]]⟩ with
        | error pr =>
            obtain ⟨sst, ee⟩ := pr
            rw [hP] at h
            simp at h
        | ok st' =>
            rw [hP] at h
            simp only [Except.ok.injEq] at h
            subst h
            constructor
            · exact processTargets_ok_dirs _ _ _ _ _ _ _ hP
            · intro t ht
              exact processTargets_ok_writes _ _ _ _ _ _ _ hP t ht
  · intro w p c
    rw [writeFile, List.lookup]
    simp

/-- Witness for C2 on the scenario run: default output root, ksize
directory outputs/4 created once, and the target's output looked up at
outputs/4/target.sig. -/
theorem output_path_layout_witness :
    stW.dirs = [((none : Option SigPath).getD ["outputs"]) ++ [Nat.repr 4]] ∧
    (∃ f c, fileNameOf ["dir", "target.sig"] = some f ∧
      List.lookup (((none : Option SigPath).getD ["outputs"]) ++
          [Nat.repr 4] ++ [f]) stW.written = some c) :=
  ⟨(output_path_layout.2.1 fsW ["query.sig"] [["dir", "target.sig"]]
      4 1 none stW rfl).1,
   (output_path_layout.2.1 fsW ["query.sig"] [["dir", "target.sig"]]
      4 1 none stW rfl).2 ["dir", "target.sig"] (by simp)⟩

/-- C3: the query loader scans all records of the query file and keeps
the last matching sketch (it equals the first match over the reversed
record list), a parse failure of the query file is fatal, and so is the
absence of any record with a matching sketch. -/
theorem loadQuery_last_match :
    (∀ (records : List Signature) (template : Sketch),
        loadQuery records template =
          (records.reverse).findSome? (queryMatchOf template)) ∧
    (∀ (fs : SigPath → Option (List Signature)) (q : SigPath)
        (targets : List SigPath) (ksize scaled : Nat)
        (output : Option SigPath), fs q = none →
        subtract fs q targets ksize scaled output =
          Except.error RunError.queryParse) ∧
    (∀ (fs : SigPath → Option (List Signature)) (q : SigPath)
        (targets : List SigPath) (ksize scaled : Nat)
        (output : Option SigPath) (records : List Signature),
        fs q = some records →
        loadQuery records (mkTemplate ksize scaled) = none →
        subtract fs q targets ksize scaled output =
          Except.error RunError.queryNoMatch) := by
  refine ⟨?_, ?_, ?_⟩
  · intro records template
    unfold loadQuery
    rw [loadQuery_foldl records template none]
    cases (records.reverse).findSome? (queryMatchOf template) <;> rfl
  · intro fs q targets ksize scaled output h
    exact subtract_none fs q targets ksize scaled output h
  · intro fs q targets ksize scaled output records h1 h2
    rw [subtract_some fs q targets ksize scaled output records h1, h2]

/-- Witness for C3: an unreadable query file and a query file with no
matching record each abort the run with the corresponding error. -/
theorem loadQuery_last_match_witness :
    subtract (fun _ => none) ["q"] [] 4 1 none =
      Except.error RunError.queryParse ∧
    subtract (fun p => if p = ["q"] then some [] else none) ["q"] [] 4 1
        none =
      Except.error RunError.queryNoMatch :=
  ⟨loadQuery_last_match.2.1 (fun _ => none) ["q"] [] 4 1 none rfl,
   loadQuery_last_match.2.2 (fun p => if p = ["q"] then some [] else none)
     ["q"] [] 4 1 none [] rfl rfl⟩

/-- C5: every successfully processed target writes a single-element
collection holding one signature, and that signature carries exactly
one sketch, the mutated hash-set sketch; every sketch variant
originally attached was discarded by the reset before the push. -/
theorem output_single_mutated_sketch
    (fs : SigPath → Option (List Signature)) (tpl : Sketch)
    (mask : List Nat) (outdir t p : SigPath) (c : List Signature)
    (h : processTarget fs tpl mask outdir t = Except.ok (p, c)) :
    ∃ records sig0 mh0,
      fs t = some records ∧ records.head? = some sig0 ∧
      sig0.selectSketch tpl = some (Sketch.MinHash mh0) ∧
      c = [(sig0.resetSketches).push
            (Sketch.MinHash (removeMany mh0 mask))] ∧
      ∀ sig ∈ c, sig.signatures =
        [Sketch.MinHash (removeMany mh0 mask)] := by
  obtain ⟨records, sig0, mh0, f, hfs, hh, hsel, _, _, hc⟩ :=
    processTarget_ok_spec fs tpl mask outdir t p c h
  refine ⟨records, sig0, mh0, hfs, hh, hsel, hc, ?_⟩
  intro sig hsig
  rw [hc, List.mem_singleton] at hsig
  rw [hsig]
  rfl

/-- Witness for C5 on the scenario target: the written collection is
the one-element array of the target signature carrying only the
mutated sketch. -/
theorem output_single_mutated_sketch_witness :
    ∃ records sig0 mh0,
      fsW ["dir", "target.sig"] = some records ∧
      records.head? = some sig0 ∧
      sig0.selectSketch (mkTemplate 4 1) = some (Sketch.MinHash mh0) ∧
      [outSigW] = [(sig0.resetSketches).push
            (Sketch.MinHash (removeMany mh0 [1, 2, 3]))] ∧
      ∀ sig ∈ [outSigW], sig.signatures =
        [Sketch.MinHash (removeMany mh0 [1, 2, 3])] :=
  output_single_mutated_sketch fsW (mkTemplate 4 1) [1, 2, 3]
    ["outputs", "4"] ["dir", "target.sig"]
    ["outputs", "4", "target.sig"] [outSigW] rfl

/-- C9: the progress counter is bumped exactly once per target at the
moment its processing begins, so a completed run ends with counter
equal to the starting value plus the number of targets; one log line
reporting the count i is emitted exactly for the targets whose
post-increment read i (the value fetch_add returns) is a multiple of
1000. -/
theorem progress_counter_log (fs : SigPath → Option (List Signature))
    (tpl : Sketch) (mask : List Nat) (outdir : SigPath)
    (ts : List SigPath) (st st' : RunState)
    (h : processTargets fs tpl mask outdir ts st = Except.ok st') :
    st'.counter = st.counter + ts.length ∧
    st'.logs = st.logs ++
      (((List.range ts.length).map (fun j => st.counter + j)).filter
        (fun i => i % 1000 == 0)) := by
  induction ts generalizing st with
  | nil =>
      rw [processTargets_nil] at h
      cases h
      simp
  | cons t ts ih =>
      cases hp : processTarget fs tpl mask outdir t with
      | error e =>
          rw [processTargets_cons_err fs tpl mask outdir t ts st e hp] at h
          simp at h
      | ok pc =>
          obtain ⟨p, c⟩ := pc
          rw [processTargets_cons_ok fs tpl mask outdir t ts st p c hp] at h
          have hi := ih _ h
          have h1 : st'.counter = st.counter + 1 + ts.length := hi.1
          have h2 : st'.logs =
              (if st.counter % 1000 == 0 then st.logs ++ [st.counter]
                else st.logs) ++
              (((List.range ts.length).map
                  (fun j => st.counter + 1 + j)).filter
                (fun i => i % 1000 == 0)) := hi.2
          clear hi
          constructor
          · rw [h1, List.length_cons]
            omega
          · rw [h2, List.length_cons, List.range_succ_eq_map,
              List.map_cons, List.filter_cons, List.map_map]
            have hmc : (List.range ts.length).map
                  ((fun j => st.counter + j) ∘ Nat.succ) =
                (List.range ts.length).map (fun j => st.counter + 1 + j) :=
              List.map_congr_left (fun a _ => by simp [Function.comp]; omega)
            rw [hmc, Nat.add_zero]
            cases hc : st.counter % 1000 == 0 with
            | true => simp at hc; simp [hc]
            | false => simp at hc; simp [hc]

/-- Witness for C9 on the scenario run: one target, final counter 1,
and one log line for the post-increment read 0. -/
theorem progress_counter_log_witness :
    stW.counter = 0 + List.length [(["dir", "target.sig"] : SigPath)] ∧
    stW.logs = [] ++
      (((List.range
            (List.length [(["dir", "target.sig"] : SigPath)])).map
          (fun j => 0 + j)).filter (fun i => i % 1000 == 0)) :=
  progress_counter_log fsW (mkTemplate 4 1) [1, 2, 3] ["outputs", "4"]
    [["dir", "target.sig"]] ⟨[], 0, [], [["outputs", "4"]]⟩ stW rfl

theorem processLoaded_cons (template : Sketch) (mask : List Nat)
    (outdir t : SigPath) (sig0 : Signature) (rest : List Signature) :
    processLoaded template mask outdir t (sig0 :: rest) =
      match sig0.selectSketch template with
      | some (Sketch.MinHash mh) =>
          match fileNameOf t with
          | none => Except.error "file_name returned None"
          | some f =>
              Except.ok (outdir ++ [f],
                [(sig0.resetSketches).push
                  (Sketch.MinHash (removeMany mh mask))])
      | _ => Except.error "no sketch matching the template" := rfl

theorem processLoaded_singleton (tmpl mh : KmerMinHash) (mask : List Nat)
    (outdir t : SigPath) (sig : Signature) (f : String)
    (hsig : sig.signatures = [Sketch.MinHash mh])
    (hc : checkCompatible mh tmpl = true)
    (hfn : fileNameOf t = some f) :
    processLoaded (Sketch.MinHash tmpl) mask outdir t [sig] =
      Except.ok (outdir ++ [f],
        [(sig.resetSketches).push
          (Sketch.MinHash (removeMany mh mask))]) := by
  have hsel : sig.selectSketch (Sketch.MinHash tmpl) =
      some (Sketch.MinHash mh) := by
    simp only [Signature.selectSketch]
    rw [hsig]
    simp [List.find?, hc]
  rw [processLoaded_cons, hsel, hfn]

/-- C7: running the pipeline again with the same mask, taking a first
run's output file as the target, reproduces that output exactly: once
subtracted, hashes never reappear and nothing further is removed
(idempotence of the subtraction on outputs), provided the original
sketches' hash lists are duplicate-free as the sketch type maintains
them. -/
theorem subtract_idempotent_on_outputs
    (fs1 fs2 : SigPath → Option (List Signature)) (template : Sketch)
    (mask : List Nat) (outdir1 outdir2 t p1 : SigPath)
    (c1 : List Signature)
    (h1 : processTarget fs1 template mask outdir1 t = Except.ok (p1, c1))
    (h2 : fs2 p1 = some c1)
    (hwf : ∀ records, fs1 t = some records →
        ∀ sig ∈ records, ∀ sk ∈ sig.signatures, sketchNodupB sk = true) :
    ∃ p2, processTarget fs2 template mask outdir2 p1 =
      Except.ok (p2, c1) := by
  obtain ⟨records, sig0, mh0, f, hfs, hh, hsel, hfn, hpe, hce⟩ :=
    processTarget_ok_spec fs1 template mask outdir1 t p1 c1 h1
  cases template with
  | LargeMinHash mhT =>
      exact absurd hsel (by simp [Signature.selectSketch])
  | MinHash tmpl =>
    have hmem0 : sig0 ∈ records := by
      cases records with
      | nil => exact absurd hh (by simp)
      | cons a l =>
          have ha : a = sig0 := by simpa using hh
          rw [← ha]
          exact List.mem_cons_self a l
    have hfind : sig0.signatures.find? (fun sk =>
        match sk with
        | Sketch.MinHash mh => checkCompatible mh tmpl
        | _ => false) = some (Sketch.MinHash mh0) := by
      have hs := hsel
      simp only [Signature.selectSketch] at hs
      exact hs
    have hmemsk : Sketch.MinHash mh0 ∈ sig0.signatures :=
      List.mem_of_find?_eq_some hfind
    have hnd : mh0.mins.Nodup := by
      have hb := hwf records hfs sig0 hmem0 (Sketch.MinHash mh0) hmemsk
      simpa [sketchNodupB] using hb
    have hcompat : checkCompatible mh0 tmpl = true := by
      have hp := List.find?_some hfind
      simpa using hp
    refine ⟨outdir2 ++ [f], ?_⟩
    rw [processTarget_some fs2 (Sketch.MinHash tmpl) mask outdir2 p1 c1 h2]
    rw [hce]
    have hfn2 : fileNameOf p1 = some f := by
      rw [hpe]
      exact List.getLast?_concat _
    have hsig1 : ((sig0.resetSketches).push
          (Sketch.MinHash (removeMany mh0 mask))).signatures =
        [Sketch.MinHash (removeMany mh0 mask)] := rfl
    rw [processLoaded_singleton tmpl (removeMany mh0 mask) mask outdir2 p1
      ((sig0.resetSketches).push (Sketch.MinHash (removeMany mh0 mask))) f
      hsig1
      (by rw [checkCompatible_removeMany]; exact hcompat) hfn2]
    rw [removeMany_idem mask mh0 hnd]
    rfl

/-- File system of the second pass: the scenario's output file. -/
def fs2W (p : SigPath) : Option (List Signature) :=
  if p = ["outputs", "4", "target.sig"] then some [outSigW] else none

/-- Witness for C7: rerunning the scenario's subtraction on its own
output reproduces the output content unchanged. -/
theorem subtract_idempotent_on_outputs_witness :
    ∃ p2, processTarget fs2W (mkTemplate 4 1) [1, 2, 3] ["out2", "4"]
        ["outputs", "4", "target.sig"] = Except.ok (p2, [outSigW]) :=
  subtract_idempotent_on_outputs fsW fs2W (mkTemplate 4 1) [1, 2, 3]
    ["outputs", "4"] ["out2", "4"] ["dir", "target.sig"]
    ["outputs", "4", "target.sig"] [outSigW] rfl rfl (by
      intro records hr
      rw [show fsW ["dir", "target.sig"] = some [tSigW] from rfl] at hr
      obtain rfl : records = [tSigW] := (Option.some.inj hr).symm
      decide)

end RemoveProtein
